import Mathlib

/-!
Verification of the ai_prompt_gateway core: the classification → routing →
response-cache pipeline.

Shallow embedding of:
  * src/backend/app/models.py      — enums and value objects (pydantic models
    become structures; each field validator becomes a smart constructor
    returning `Option`/`Except`, `none`/`.error` modelling a raised exception);
  * src/backend/app/cache.py       — `ResponseCache`, an LRU + TTL cache.  The
    Python `OrderedDict` is a list of key/entry pairs, head = oldest recency
    (first eviction candidate), last = most recently used.  `time.monotonic()`
    timestamps are explicit `ℚ` arguments.  The sha256 fingerprint of
    `_make_key` is abstracted to its (collision-free) preimage
    `(prompt.strip().lower(), classifier_mode)`;
  * src/backend/app/router.py      — tiering, routing table, cost/latency;
  * src/backend/app/classifier/rule_based.py — the heuristic classifier.  The
    Python `re` engine is abstracted: every regex of the source is transcribed
    into a `Regex` AST, and a classifier run is parameterised by the set of
    patterns that match the prompt (`mf : Regex → Bool`).  On the empty prompt
    this set is computed exactly by `searchEmptyInput` (a regex matches the
    empty string iff it is nullable, since position 0 is the only candidate);
  * src/backend/app/classifier/llm_based.py — `_parse_llm_response`.  The
    output of Python `json.loads` is modelled by the `Json` inductive
    (`Option Json`: `none` = `json.JSONDecodeError`), and the numeric
    coercions `int(...)` / `float(...)` by `pyInt` / `pyFloat`
    (`none` = `TypeError`/`ValueError` raised by the coercion).

Reason/description strings from the source are reproduced with ASCII
apostrophes omitted; interpolated numbers are rendered with `toString`.
-/

set_option maxHeartbeats 1000000

/-! ## Enums (src/backend/app/models.py) -/

/-- `TaskType` — recognised prompt task categories. -/
inductive TaskType where
  | simple_qa
  | translation
  | code
  | analysis
  | creative
  | math
  | reasoning
  | general
deriving DecidableEq, Repr

/-- The `.value` string of each `TaskType` member. -/
def taskTypeValue : TaskType → String
  | .simple_qa => "simple_qa"
  | .translation => "translation"
  | .code => "code"
  | .analysis => "analysis"
  | .creative => "creative"
  | .math => "math"
  | .reasoning => "reasoning"
  | .general => "general"

/-- `ClassifierMode` — which classification strategy to use. -/
inductive ClassifierMode where
  | rule_based
  | llm_based
deriving DecidableEq, Repr

/-- `ModelName` — LLM models the gateway can route to. -/
inductive ModelName where
  | gpt_4o_mini
  | gpt_4o
  | claude_35_sonnet
deriving DecidableEq, Repr

/-- `ProviderName` — cloud providers behind each model. -/
inductive ProviderName where
  | openai
  | anthropic
deriving DecidableEq, Repr

/-! ## Python string primitives

The classifier and the cache key normalisation use `str.strip()`,
`str.lower()`, `str.split()`, `int(str)` and `float(str)`.  They are
implemented here structurally over the character list of the string (the
Lean core equivalents are definitionally opaque to the kernel). -/

/-- Python `str.strip()` — drop leading and trailing whitespace. -/
def pyStrip (s : String) : String :=
  String.mk (((s.data.dropWhile Char.isWhitespace).reverse.dropWhile
    Char.isWhitespace).reverse)

/-- Python `str.lower()` (ASCII case folding). -/
def pyLower (s : String) : String := String.mk (s.data.map Char.toLower)

/-- Accumulator loop of `str.split()`: split on whitespace runs, dropping
empty pieces. -/
def pyWordsAux : List Char → List Char → List String
  | [], acc => if acc.isEmpty then [] else [String.mk acc.reverse]
  | c :: rest, acc =>
    if c.isWhitespace then
      if acc.isEmpty then pyWordsAux rest []
      else String.mk acc.reverse :: pyWordsAux rest []
    else pyWordsAux rest (c :: acc)

/-- Python `str.split()` with no separator argument. -/
def pyWords (s : String) : List String := pyWordsAux s.data []

/-- Read a nonempty all-digit character list as a natural number. -/
def digitsToNat (cs : List Char) : Option Nat :=
  if cs.isEmpty ∨ ¬ cs.all Char.isDigit then none
  else some (cs.foldl (fun acc c => acc * 10 + (c.toNat - 48)) 0)

/-- Python `int(str)` — surrounding whitespace, optional sign, decimal
digits; `none` models the raised `ValueError`. -/
def pyParseInt (s : String) : Option Int :=
  match (pyStrip s).data with
  | '-' :: rest => (digitsToNat rest).map (fun n => -(n : Int))
  | '+' :: rest => (digitsToNat rest).map (fun n => (n : Int))
  | t => (digitsToNat t).map (fun n => (n : Int))

/-- Python `float(str)` on a plain decimal literal (optional sign, digits,
optional fractional part); `none` models the raised `ValueError`. -/
def readDecimal (s : String) : Option ℚ :=
  let t := (pyStrip s).data
  let body := match t with
    | '-' :: rest => rest
    | '+' :: rest => rest
    | u => u
  let sign : ℚ := match t with
    | '-' :: _ => -1
    | _ => 1
  match body.span (fun c => c != '.') with
  | (intPart, []) => (digitsToNat intPart).map (fun n => sign * n)
  | (intPart, _dot :: fracPart) =>
    if fracPart.contains '.' then none
    else
      match digitsToNat intPart, digitsToNat fracPart with
      | some n, some f => some (sign * ((n : ℚ) + (f : ℚ) / (10 : ℚ) ^ fracPart.length))
      | _, _ => none

/-! ## Association-list helpers

Python `dict` / `OrderedDict` lookups are modelled on lists of pairs.  Keys in
a Python dict are unique, so the list representations used by the theorems
carry a `Nodup` hypothesis where it matters. -/

/-- First-match lookup in an association list (Python `d.get(k)` / `d[k]`). -/
def alookup {α β : Type} [DecidableEq α] (k : α) : List (α × β) → Option β
  | [] => none
  | (a, b) :: rest => if a = k then some b else alookup k rest

/-- Remove the first pair with the given key (Python `del d[k]`). -/
def aerase {α β : Type} [DecidableEq α] (k : α) : List (α × β) → List (α × β)
  | [] => []
  | (a, b) :: rest => if a = k then rest else (a, b) :: aerase k rest

/-- Key membership (Python `k in d`). -/
def acontains {α β : Type} [DecidableEq α] (k : α) (l : List (α × β)) : Bool :=
  (alookup k l).isSome

/-! ## ResponseCache (src/backend/app/cache.py) -/

/-- `_CacheEntry` — wraps a cached value with its creation timestamp
(`time.monotonic()`, modelled as `ℚ`). -/
structure CacheEntry (V : Type) where
  value : V
  created_at : ℚ
deriving DecidableEq

/-- `_CacheEntry.is_expired` — age strictly greater than the TTL. -/
def CacheEntry.is_expired {V : Type} (e : CacheEntry V) (ttl now : ℚ) : Bool :=
  decide (now - e.created_at > ttl)

/-- Cache keys: `_make_key` builds `sha256(f"{prompt.strip().lower()}::{mode.value}")`;
the hex digest is abstracted to its preimage (sha256 is treated as
collision-free), keeping the normalisation of the prompt. -/
abbrev CacheKey := String × ClassifierMode

/-- `ResponseCache._make_key` — `prompt.strip().lower()` paired with the mode. -/
def makeKey (prompt : String) (mode : ClassifierMode) : CacheKey :=
  (pyLower (pyStrip prompt), mode)

/-- `ResponseCache` state: capacity, TTL, ordered store (head = least recently
used, last = most recently used), hit/miss counters.  The value type is left
abstract (`RouteResponse` objects are opaque to the cache). -/
structure ResponseCache (V : Type) where
  max_size : Nat
  ttl : ℚ
  store : List (CacheKey × CacheEntry V)
  hits : Nat
  misses : Nat
deriving DecidableEq

/-- `ResponseCache.__init__` with given capacity and TTL. -/
def ResponseCache.mk0 (V : Type) (max_size : Nat) (ttl : ℚ) : ResponseCache V :=
  { max_size := max_size, ttl := ttl, store := [], hits := 0, misses := 0 }

/-- `OrderedDict.move_to_end(key)` — relocate the entry for `key` to the
most-recently-used (last) position. -/
def moveToEnd {V : Type} (k : CacheKey) (l : List (CacheKey × CacheEntry V)) :
    List (CacheKey × CacheEntry V) :=
  match alookup k l with
  | none => l
  | some e => aerase k l ++ [(k, e)]

/-- `ResponseCache.get` — returns the looked-up value (`none` = miss) together
with the updated cache.  `now` is the current monotonic time. -/
def ResponseCache.get {V : Type} (c : ResponseCache V) (prompt : String)
    (mode : ClassifierMode) (now : ℚ) : Option V × ResponseCache V :=
  let key := makeKey prompt mode
  match alookup key c.store with
  | none => (none, { c with misses := c.misses + 1 })
  | some entry =>
    if entry.is_expired c.ttl now then
      (none, { c with store := aerase key c.store, misses := c.misses + 1 })
    else
      (some entry.value, { c with store := moveToEnd key c.store, hits := c.hits + 1 })

/-- The `while len(store) >= max_size: store.popitem(last=False)` loop of
`ResponseCache.put`: repeatedly drop the head (least recently used).
(For `max_size = 0` the Python loop ends by raising `KeyError` on the empty
dict; cache capacity is specified to be a positive integer, and every theorem
below assumes `1 ≤ max_size`.) -/
def evictWhile {α : Type} (max_size : Nat) : List α → List α
  | [] => []
  | x :: xs => if xs.length + 1 ≥ max_size then evictWhile max_size xs else x :: xs

/-- `ResponseCache.put` — remove an existing entry for the key, evict down to
below capacity, then insert the fresh entry at the most-recently-used end. -/
def ResponseCache.put {V : Type} (c : ResponseCache V) (prompt : String)
    (mode : ClassifierMode) (response : V) (now : ℚ) : ResponseCache V :=
  let key := makeKey prompt mode
  let s1 := if acontains key c.store then aerase key c.store else c.store
  let s2 := evictWhile c.max_size s1
  { c with store := s2 ++ [(key, { value := response, created_at := now })] }

/-- `ResponseCache.clear` — drop all entries and reset the counters. -/
def ResponseCache.clear {V : Type} (c : ResponseCache V) : ResponseCache V :=
  { c with store := [], hits := 0, misses := 0 }

/-- The dictionary returned by `ResponseCache.stats`. -/
structure CacheStats where
  size : Nat
  max_size : Nat
  ttl_seconds : ℚ
  hits : Nat
  misses : Nat
  hit_rate_percent : ℚ
deriving DecidableEq

/-- Python `round(x, 2)` on the exact rational value (round-half-up is used
where Python uses round-half-even; no theorem below depends on a tie). -/
def round2 (q : ℚ) : ℚ := ((Int.floor (q * 100 + 1 / 2) : ℚ)) / 100

/-- `ResponseCache.stats`. -/
def ResponseCache.stats {V : Type} (c : ResponseCache V) : CacheStats :=
  let total := c.hits + c.misses
  { size := c.store.length
    max_size := c.max_size
    ttl_seconds := c.ttl
    hits := c.hits
    misses := c.misses
    hit_rate_percent := if total > 0 then round2 ((c.hits : ℚ) / (total : ℚ) * 100) else 0 }

/-- One cache operation, for stating invariants over operation sequences. -/
inductive CacheOp (V : Type) where
  | get (prompt : String) (mode : ClassifierMode) (now : ℚ)
  | put (prompt : String) (mode : ClassifierMode) (response : V) (now : ℚ)
  | clear

/-- Apply one operation to a cache. -/
def applyOp {V : Type} (c : ResponseCache V) : CacheOp V → ResponseCache V
  | .get prompt mode now => (c.get prompt mode now).2
  | .put prompt mode response now => c.put prompt mode response now
  | .clear => c.clear

/-- Apply a sequence of operations, left to right. -/
def applyOps {V : Type} (c : ResponseCache V) (ops : List (CacheOp V)) : ResponseCache V :=
  ops.foldl applyOp c

/-! ## Classification result (src/backend/app/models.py, `ClassificationResult`) -/

/-- `ClassificationResult` — output produced by either classifier. -/
structure ClassificationResult where
  complexity_score : Int
  task_type : TaskType
  reasoning : String
  confidence : ℚ
  classifier_mode : ClassifierMode
deriving DecidableEq

/-- The pydantic constructor of `ClassificationResult`: field constraints
`complexity_score ∈ [1,10]` (both the `Field(ge=1, le=10)` bound and the
`validate_complexity_range` validator), `reasoning` of length ≥ 1
(`min_length=1`) and `confidence ∈ [0.0, 1.0]` (`ge=0.0, le=1.0`).
`none` models a raised `ValidationError`. -/
def mkClassificationResult (score : Int) (t : TaskType) (reasoning : String)
    (confidence : ℚ) (mode : ClassifierMode) : Option ClassificationResult :=
  if 1 ≤ score ∧ score ≤ 10 ∧ 1 ≤ reasoning.length ∧ 0 ≤ confidence ∧ confidence ≤ 1 then
    some { complexity_score := score, task_type := t, reasoning := reasoning
           confidence := confidence, classifier_mode := mode }
  else none

/-! ## Router (src/backend/app/router.py) -/

/-- `ModelInfo` — static metadata for a single model (costs exact, as `ℚ`). -/
structure ModelInfo where
  name : ModelName
  provider : ProviderName
  cost_per_1k_input_tokens : ℚ
  cost_per_1k_output_tokens : ℚ
  avg_latency_ms : Nat
  strengths : List String
  max_context_tokens : Nat
deriving DecidableEq

/-- `MODEL_REGISTRY` — the Python dict holds exactly the three `ModelName`
members as keys, so it is a total function on `ModelName`. -/
def MODEL_REGISTRY : ModelName → ModelInfo
  | .gpt_4o_mini =>
    { name := .gpt_4o_mini, provider := .openai
      cost_per_1k_input_tokens := 0.00015, cost_per_1k_output_tokens := 0.0006
      avg_latency_ms := 300
      strengths := ["fast", "cheap", "simple tasks", "translations"]
      max_context_tokens := 128000 }
  | .gpt_4o =>
    { name := .gpt_4o, provider := .openai
      cost_per_1k_input_tokens := 0.005, cost_per_1k_output_tokens := 0.015
      avg_latency_ms := 800
      strengths := ["top-tier reasoning", "complex math", "advanced code"]
      max_context_tokens := 128000 }
  | .claude_35_sonnet =>
    { name := .claude_35_sonnet, provider := .anthropic
      cost_per_1k_input_tokens := 0.003, cost_per_1k_output_tokens := 0.015
      avg_latency_ms := 700
      strengths := ["nuanced analysis", "long-form writing", "creative writing", "multilingual"]
      max_context_tokens := 200000 }

/-- `_get_tier` — map a complexity score to a tier label. -/
def getTier (score : Int) : String :=
  if score ≤ 3 then "low"
  else if score ≤ 6 then "medium"
  else "high"

/-- `_ROUTING_TABLE` — `(tier, task_type) → ModelName`, in source order. -/
def ROUTING_TABLE : List ((String × TaskType) × ModelName) :=
  [ (("low", .simple_qa), .gpt_4o_mini)
  , (("low", .translation), .gpt_4o_mini)
  , (("low", .general), .gpt_4o_mini)
  , (("low", .creative), .gpt_4o_mini)
  , (("low", .code), .gpt_4o_mini)
  , (("low", .analysis), .gpt_4o_mini)
  , (("low", .math), .gpt_4o_mini)
  , (("low", .reasoning), .gpt_4o_mini)
  , (("medium", .code), .gpt_4o_mini)
  , (("medium", .analysis), .claude_35_sonnet)
  , (("medium", .math), .gpt_4o_mini)
  , (("medium", .creative), .claude_35_sonnet)
  , (("medium", .translation), .claude_35_sonnet)
  , (("medium", .simple_qa), .gpt_4o_mini)
  , (("medium", .general), .gpt_4o_mini)
  , (("medium", .reasoning), .claude_35_sonnet)
  , (("high", .reasoning), .gpt_4o)
  , (("high", .math), .gpt_4o)
  , (("high", .code), .gpt_4o)
  , (("high", .analysis), .claude_35_sonnet)
  , (("high", .creative), .claude_35_sonnet)
  , (("high", .general), .claude_35_sonnet)
  , (("high", .translation), .claude_35_sonnet)
  , (("high", .simple_qa), .gpt_4o) ]

/-- `_TIER_DEFAULTS` — fallback model per tier. -/
def TIER_DEFAULTS : List (String × ModelName) :=
  [("low", .gpt_4o_mini), ("medium", .gpt_4o_mini), ("high", .gpt_4o)]

/-- The `tier_ranges` dict inside `_build_reasoning_chain`. -/
def TIER_RANGES : List (String × String) :=
  [("low", "1-3"), ("medium", "4-6"), ("high", "7-10")]

/-- `RoutingDecision` — the reasoning-chain steps are kept as their step
numbers; the `description` strings are UI display text built by f-string
formatting and are not modelled. -/
structure RoutingDecision where
  model : ModelName
  provider : ProviderName
  reasoning_chain : List Nat
  estimated_cost_per_1k_tokens : ℚ
  estimated_latency_ms : Nat
deriving DecidableEq

/-- The pydantic constructor of `RoutingDecision`: cost `ge=0.0` (the latency
`ge=0` bound is carried by `Nat`). -/
def mkRoutingDecision (model : ModelName) (provider : ProviderName)
    (chain : List Nat) (cost : ℚ) (latency : Nat) : Option RoutingDecision :=
  if 0 ≤ cost then
    some { model := model, provider := provider, reasoning_chain := chain
           estimated_cost_per_1k_tokens := cost, estimated_latency_ms := latency }
  else none

/-- `_build_reasoning_chain` — five steps; step 2 indexes `tier_ranges[tier]`
(a `KeyError` there is modelled by `none`), steps 1 and 3–5 only format
strings and always succeed. -/
def buildReasoningChain (tier : String) : Option (List Nat) :=
  (alookup tier TIER_RANGES).map (fun _ => [1, 2, 3, 4, 5])

/-- Python `round(x, 6)` on the exact rational value (round-half-up where
Python uses round-half-even; every registry blend is exact at 6 decimals, so
no tie is ever rounded). -/
def round6 (q : ℚ) : ℚ := ((Int.floor (q * 1000000 + 1 / 2) : ℚ)) / 1000000

/-- `route` — select the model for a classification.  `none` models a raised
exception (`KeyError` on `_TIER_DEFAULTS[tier]` / `tier_ranges[tier]`). -/
def route (c : ClassificationResult) : Option RoutingDecision :=
  let tier := getTier c.complexity_score
  match alookup tier TIER_DEFAULTS with
  | none => none
  | some dflt =>
    let chosen := (alookup (tier, c.task_type) ROUTING_TABLE).getD dflt
    let info := MODEL_REGISTRY chosen
    match buildReasoningChain tier with
    | none => none
    | some chain =>
      let avg_cost := (info.cost_per_1k_input_tokens + info.cost_per_1k_output_tokens) / 2
      mkRoutingDecision chosen info.provider chain (round6 avg_cost) info.avg_latency_ms

/-- Order of the tiers for the monotonicity statement: low < medium < high. -/
def tierOrd (tier : String) : Nat :=
  if tier = "low" then 0 else if tier = "medium" then 1 else 2

/-! ## Regex AST (src/backend/app/classifier/rule_based.py, pattern banks)

Every compiled pattern of the source is transcribed into this AST.  All the
banks are compiled with `re.I`; literals are transcribed lowercase and
case-folding is the matcher's concern.  The claims below need the matcher's
behaviour only on the empty input, where `re.search` has a single candidate
position and succeeds iff the pattern is nullable (`searchEmptyInput`). -/

/-- Atomic single-character matchers: a literal character, `[0-9]`, `\s`, `.`
and the ad-hoc class `[\+\-\*/\^]` (any class is a `chcls` of its members). -/
inductive RTok where
  | ch (c : Char)
  | digit
  | wsp
  | dot
deriving DecidableEq

/-- Regex AST: ε, one-character token, concatenation, alternation, `*`, `+`,
bounded repetition `{lo,hi}` (with `r? = rep r 0 1`), the anchors `^` and `$`,
and the word boundary `\b`. -/
inductive Regex where
  | eps
  | tok (t : RTok)
  | cat (a b : Regex)
  | alt (a b : Regex)
  | star (a : Regex)
  | plus (a : Regex)
  | rep (a : Regex) (lo hi : Nat)
  | bol
  | eol
  | wb
deriving DecidableEq

/-- Whether `re.search(pattern, "")` succeeds: on the empty input the only
candidate position is 0, where `^` and `$` hold, `\b` fails (no word character
on either side) and a match must consume no characters. -/
def searchEmptyInput : Regex → Bool
  | .eps => true
  | .tok _ => false
  | .cat a b => searchEmptyInput a && searchEmptyInput b
  | .alt a b => searchEmptyInput a || searchEmptyInput b
  | .star _ => true
  | .plus a => searchEmptyInput a
  | .rep a lo _ => lo == 0 || searchEmptyInput a
  | .bol => true
  | .eol => true
  | .wb => false

/-- Literal string (sequence of literal characters). -/
def rstr (s : String) : Regex :=
  s.data.foldr (fun c r => Regex.cat (.tok (.ch c)) r) .eps

/-- Alternation of a nonempty list of regexes. -/
def ralt : List Regex → Regex
  | [] => .eps
  | [r] => r
  | r :: rest => .alt r (ralt rest)

/-- Alternation of literal words. -/
def rwords (ws : List String) : Regex := ralt (ws.map rstr)

/-- Character class listing its members. -/
def rchars (s : String) : Regex := ralt (s.data.map (fun c => Regex.tok (.ch c)))

/-- `\s*` -/
def rws0 : Regex := .star (.tok .wsp)

/-- `\s+` -/
def rws1 : Regex := .plus (.tok .wsp)

/-- `.*` -/
def dotStar : Regex := .star (.tok .dot)

/-- `r?` -/
def ropt (r : Regex) : Regex := .rep r 0 1

/-- `\b( r )\b` -/
def wbWrap (r : Regex) : Regex := .cat .wb (.cat r .wb)

/-- `_CODE_PATTERNS` -/
def CODE_PATTERNS : List Regex :=
  [ wbWrap (rwords ["def ", "class ", "import ", "function ", "const ", "let ",
      "var ", "=>", "async ", "await "])
  , wbWrap (rwords ["python", "javascript", "typescript", "java", "rust", "golang",
      "c++", "sql", "html", "css", "react", "django", "flask", "fastapi"])
  , .cat .wb (.cat (rwords ["write", "build", "create", "implement", "code", "debug",
      "fix", "refactor", "optimise", "optimize"])
      (.cat .wb (.cat dotStar (.cat .wb (.cat (ralt
        [ rstr "function", rstr "class", rstr "api"
        , .cat (rstr "app") (ropt (rstr "lication"))
        , rstr "script", rstr "program", rstr "module", rstr "endpoint"
        , rstr "server", rstr "database", rstr "query", rstr "service"
        , rstr "system" ]) .wb)))))
  , wbWrap (ralt [rstr "bug", rstr "error", rstr "exception", rstr "traceback",
      .cat (rstr "stack") (.cat rws0 (rstr "trace")), rstr "segfault",
      rstr "compile", rstr "runtime"])
  , rstr "```" ]

/-- `_MATH_PATTERNS` -/
def MATH_PATTERNS : List Regex :=
  [ wbWrap (rwords ["solve", "calculate", "compute", "derive", "integrate",
      "differentiate", "prove", "equation", "formula"])
  , wbWrap (ralt [rstr "algebra", rstr "calculus", rstr "geometry",
      rstr "trigonometry", rstr "probability", rstr "statistics",
      .cat (rstr "linear") (.cat rws0 (rstr "algebra")),
      rstr "matrix", rstr "matrices"])
  , .cat (.plus (.tok .digit)) (.cat rws0 (.cat (rchars "+-*/^")
      (.cat rws0 (.plus (.tok .digit)))))
  , wbWrap (rwords ["sum", "product", "factorial", "logarithm", "sqrt", "sin",
      "cos", "tan"]) ]

/-- `_CREATIVE_PATTERNS` -/
def CREATIVE_PATTERNS : List Regex :=
  [ .cat .wb (.cat (rwords ["write", "compose", "create", "draft"])
      (.cat .wb (.cat dotStar (.cat .wb (.cat (ralt
        [ rstr "poem", rstr "story", rstr "essay", rstr "song", rstr "lyrics"
        , rstr "haiku", rstr "limerick", rstr "narrative", rstr "fiction"
        , .cat (rstr "blog") (.cat rws0 (rstr "post")), rstr "article" ]) .wb)))))
  , wbWrap (rwords ["creative", "imaginative", "poetic", "artistic", "metaphor",
      "rhyme"])
  , wbWrap (rwords ["once upon a time", "in a world where", "dear diary"]) ]

/-- `_ANALYSIS_PATTERNS` -/
def ANALYSIS_PATTERNS : List Regex :=
  [ wbWrap (ralt [.cat (rstr "analy") (.cat (rchars "sz") (rstr "e")),
      rstr "compare", rstr "contrast", rstr "evaluate", rstr "assess",
      rstr "critique", rstr "review", rstr "examine", rstr "investigate",
      rstr "discuss"])
  , wbWrap (ralt
      [ .cat (.cat (rstr "pro") (ropt (rstr "s"))) (.cat rws1
          (.cat (ralt [rstr "and", rstr "&"]) (.cat rws1
            (.cat (rstr "con") (ropt (rstr "s"))))))
      , .cat (rstr "trade") (.cat rws0 (.cat (ropt (rstr "-"))
          (.cat rws0 (.cat (rstr "off") (ropt (rstr "s"))))))
      , .cat (rstr "implication") (ropt (rstr "s"))
      , rstr "impact" ])
  , .cat .wb (.cat (rwords ["explain", "describe", "elaborate"])
      (.cat .wb (.cat dotStar (.cat .wb (.cat (rwords ["how", "why",
        "difference", "relationship", "impact"]) .wb))))) ]

/-- The language alternation shared by both `_TRANSLATION_PATTERNS`. -/
def LANGS : Regex :=
  rwords ["english", "spanish", "french", "german", "chinese", "japanese",
    "korean", "hindi", "arabic", "portuguese", "russian", "italian"]

/-- `_TRANSLATION_PATTERNS` -/
def TRANSLATION_PATTERNS : List Regex :=
  [ .cat .wb (.cat (ralt [.cat (rstr "translat") (ralt [rstr "e", rstr "ion"]),
      rstr "convert"])
      (.cat .wb (.cat dotStar (.cat .wb (.cat (rwords ["to", "into", "from"])
        (.cat .wb (.cat dotStar (.cat .wb (.cat LANGS .wb)))))))))
  , wbWrap (.cat (rstr "in") (.cat rws1 LANGS)) ]

/-- `_REASONING_PATTERNS` -/
def REASONING_PATTERNS : List Regex :=
  [ wbWrap (ralt [rstr "reason", rstr "logic", rstr "deduc", rstr "induc",
      rstr "infer", rstr "hypothe",
      .cat (rstr "thought") (.cat rws0 (rstr "experiment")),
      rstr "paradox", rstr "dilemma"])
  , wbWrap (ralt
      [ .cat (rstr "step") (.cat rws0 (.cat (rstr "by") (.cat rws0 (rstr "step"))))
      , .cat (rstr "chain") (.cat rws0 (.cat (rstr "of") (.cat rws0 (rstr "thought"))))
      , .cat (rstr "think") (.cat rws0 (rstr "through"))
      , .cat (rstr "work") (.cat rws0 (rstr "through")) ])
  , wbWrap (rwords ["quantum", "relativity", "philosophy", "epistemology",
      "ontology", "consciousness"])
  , wbWrap (.cat (rstr "explain") (.cat rws1 (.cat (ralt [rstr "why", rstr "how"])
      (.cat .wb (.cat dotStar (.cat .wb (rwords ["complex", "advanced",
        "nuanced", "detailed"]))))))) ]

/-- `_SIMPLE_QA_PATTERNS` -/
def SIMPLE_QA_PATTERNS : List Regex :=
  [ .cat .bol (.cat (ralt
      [ rstr "what", rstr "who", rstr "when", rstr "where", rstr "which"
      , .cat (rstr "how") (.cat rws1 (rstr "many"))
      , .cat (rstr "how") (.cat rws1 (rstr "much"))
      , rstr "is", rstr "are", rstr "was", rstr "were", rstr "do", rstr "does"
      , rstr "did", rstr "can", rstr "could" ]) .wb)
  , wbWrap (ralt
      [ rstr "define"
      , .cat (rstr "meaning") (.cat rws1 (rstr "of"))
      , .cat (rstr "what") (.cat rws1 (rstr "is"))
      , .cat (rstr "who") (.cat rws1 (rstr "is"))
      , .cat (rstr "capital") (.cat rws1 (rstr "of")) ]) ]

/-- `_COMPLEXITY_BOOSTERS` — (pattern, score delta, reason). -/
def COMPLEXITY_BOOSTERS : List (Regex × Int × String) :=
  [ (wbWrap (ralt
      [ .cat (rstr "step") (.cat rws0 (.cat (rstr "by") (.cat rws0 (rstr "step"))))
      , rstr "detailed", rstr "comprehensive", rstr "thorough"
      , .cat (rstr "in") (.cat rws0 (.cat (ropt (rstr "-")) (.cat rws0 (rstr "depth")))) ]),
     2, "requests detailed/thorough treatment")
  , (wbWrap (ralt
      [ rstr "compare", rstr "contrast"
      , .cat (rstr "trade") (.cat rws0 (.cat (ropt (rstr "-"))
          (.cat rws0 (.cat (rstr "off") (ropt (rstr "s"))))))
      , .cat (.cat (rstr "pro") (ropt (rstr "s"))) (.cat rws1
          (.cat (ralt [rstr "and", rstr "&"]) (.cat rws1
            (.cat (rstr "con") (ropt (rstr "s")))))) ]),
     1, "involves comparison/trade-off analysis")
  , (wbWrap (ralt [rstr "explain", rstr "why",
      .cat (rstr "how") (.cat rws1 (rstr "does")),
      .cat (rstr "how") (.cat rws1 (rstr "do"))]),
     1, "asks for explanation")
  , (wbWrap (rwords ["multiple", "several", "many", "various", "different"]),
     1, "references multiple items")
  , (wbWrap (rwords ["advanced", "complex", "difficult", "challenging", "hard"]),
     2, "explicitly mentions high difficulty")
  , (wbWrap (ralt
      [ .cat (rstr "error") (.cat rws0 (rstr "handling"))
      , .cat (rstr "edge") (.cat rws0 (rstr "case"))
      , rstr "security", rstr "authentication", rstr "authoriz" ]),
     1, "mentions robustness concerns")
  , (wbWrap (ralt
      [ rstr "architect"
      , .cat (rstr "design") (.cat rws0 (rstr "pattern"))
      , .cat (rstr "system") (.cat rws0 (rstr "design"))
      , rstr "scalab", rstr "distributed" ]),
     2, "involves architecture/design") ]

/-- `_COMPLEXITY_REDUCERS` — (pattern, score delta, reason). -/
def COMPLEXITY_REDUCERS : List (Regex × Int × String) :=
  [ (wbWrap (rwords ["simple", "basic", "easy", "quick", "brief", "short"]),
     1, "explicitly simple/basic")
  , (wbWrap (ralt
      [ .cat (rstr "yes") (.cat rws1 (.cat (rstr "or") (.cat rws1 (rstr "no"))))
      , .cat (rstr "true") (.cat rws1 (.cat (rstr "or") (.cat rws1 (rstr "false")))) ]),
     2, "binary question")
  , (.cat .bol (.cat (.rep (.tok .dot) 1 30) .eol),
     1, "very short prompt") ]

/-! ## Rule-based classifier (src/backend/app/classifier/rule_based.py)

A classifier run is parameterised by `mf : Regex → Bool`, the set of source
patterns that `re.search` finds in the prompt being classified.  For the empty
prompt this function is exactly `searchEmptyInput`. -/

/-- `_estimate_token_count` — `max(int((words * 0.75 + chars / 4) / 2), 1)`;
`str.split()` splits on whitespace runs and discards empty pieces, the value
is nonnegative so Python `int` truncation is the floor. -/
def estimateTokenCount (prompt : String) : Nat :=
  let word_count := (pyWords prompt).length
  let char_count := prompt.length
  max (Int.floor (((word_count : ℚ) * (3 / 4 : ℚ) + (char_count : ℚ) / 4) / 2)).toNat 1

/-- `_count_matches` — how many patterns from the list match the text. -/
def countMatches (mf : Regex → Bool) (patterns : List Regex) : Nat :=
  patterns.countP mf

/-- The `checks` list of `_detect_task_type`, in source order. -/
def checks : List (List Regex × TaskType × String) :=
  [ (CODE_PATTERNS, .code, "code-related keywords detected")
  , (MATH_PATTERNS, .math, "math/calculation keywords detected")
  , (TRANSLATION_PATTERNS, .translation, "translation request detected")
  , (CREATIVE_PATTERNS, .creative, "creative writing keywords detected")
  , (REASONING_PATTERNS, .reasoning, "complex reasoning keywords detected")
  , (ANALYSIS_PATTERNS, .analysis, "analytical keywords detected")
  , (SIMPLE_QA_PATTERNS, .simple_qa, "simple question pattern detected") ]

/-- The loop of `_detect_task_type`: keep the running best (type, reason) and
best hit count, replacing it only on a strictly higher count. -/
def detectLoop (mf : Regex → Bool) :
    List (List Regex × TaskType × String) → TaskType × String → Nat → TaskType × String
  | [], best, _ => best
  | (patterns, t, reason) :: rest, best, best_hits =>
    let hits := countMatches mf patterns
    if hits > best_hits then detectLoop mf rest (t, reason) hits
    else detectLoop mf rest best best_hits

/-- `_detect_task_type` — best starts as `general` with zero hits. -/
def detectTaskType (mf : Regex → Bool) : TaskType × String :=
  detectLoop mf checks (.general, "no strong keyword signals; classified as general") 0

/-- Hit count of one bank entry. -/
def bankHits (mf : Regex → Bool) (e : List Regex × TaskType × String) : Nat :=
  countMatches mf e.1

/-- Highest hit count over a list of bank entries. -/
def maxHits (mf : Regex → Bool) (l : List (List Regex × TaskType × String)) : Nat :=
  (l.map (bankHits mf)).foldr max 0

/-- Task detection as the spec words it (for the refinement claim): the
category with the strictly highest match count wins, ties keep the first
category in bank order, zero matches everywhere falls back to `general`. -/
def detectTaskTypeSpec (mf : Regex → Bool) : TaskType :=
  let m := maxHits mf checks
  if m = 0 then .general
  else ((checks.find? (fun e => bankHits mf e = m)).map (fun e => e.2.1)).getD .general

/-- The `base_scores` dict of `_compute_base_complexity`; all eight members
are listed, so `dict.get(task_type, 3)` never takes its default. -/
def baseScores : TaskType → Int
  | .simple_qa => 2
  | .translation => 3
  | .general => 3
  | .creative => 5
  | .code => 5
  | .analysis => 5
  | .math => 6
  | .reasoning => 7

/-- `_compute_base_complexity` — base score by task type plus length
adjustment; returns the score and the reasoning fragments. -/
def computeBaseComplexity (task_type : TaskType) (token_count : Nat) :
    Int × List String :=
  let score := baseScores task_type
  let reasons := ["base score " ++ toString score ++ " for task type "
    ++ taskTypeValue task_type]
  if token_count > 200 then
    (score + 2, reasons ++ ["long prompt (~" ++ toString token_count ++ " tokens, +2)"])
  else if token_count > 80 then
    (score + 1, reasons ++ ["medium-length prompt (~" ++ toString token_count ++ " tokens, +1)"])
  else
    (score, reasons ++ ["short prompt (~" ++ toString token_count ++ " tokens, +0)"])

/-- Body of the booster loop of `_apply_adjustments`: on a match, add the
delta to the score and append the fragment. -/
def boosterStep (mf : Regex → Bool) (acc : Int × List String)
    (pdr : Regex × Int × String) : Int × List String :=
  if mf pdr.1 then
    (acc.1 + pdr.2.1, acc.2 ++ ["+" ++ toString pdr.2.1 ++ ": " ++ pdr.2.2])
  else acc

/-- Body of the reducer loop of `_apply_adjustments`: on a match, subtract
the delta from the score and append the fragment. -/
def reducerStep (mf : Regex → Bool) (acc : Int × List String)
    (pdr : Regex × Int × String) : Int × List String :=
  if mf pdr.1 then
    (acc.1 - pdr.2.1, acc.2 ++ ["-" ++ toString pdr.2.1 ++ ": " ++ pdr.2.2])
  else acc

/-- `_apply_adjustments` — add each matching booster delta, then subtract each
matching reducer delta, appending a fragment per triggered pattern. -/
def applyAdjustments (mf : Regex → Bool) (score : Int) (reasons : List String) :
    Int × List String :=
  COMPLEXITY_REDUCERS.foldl (reducerStep mf)
    (COMPLEXITY_BOOSTERS.foldl (boosterStep mf) (score, reasons))

/-- `_clamp` — clamp an integer into `[lo, hi]`. -/
def clamp (value lo hi : Int) : Int := max lo (min hi value)

/-- Python `sep.join(parts)`. -/
def joinSep (sep : String) : List String → String
  | [] => ""
  | a :: rest => rest.foldl (fun acc x => acc ++ sep ++ x) a

/-- `classify` (rule-based) — token estimate, task detection, base score,
boosters/reducers, clamp, rationale; wrapped in the pydantic constructor
(`none` models a `ValidationError`, which never occurs). -/
def classify (mf : Regex → Bool) (prompt : String) : Option ClassificationResult :=
  let token_count := estimateTokenCount prompt
  let tr := detectTaskType mf
  let base := computeBaseComplexity tr.1 token_count
  let reasons1 := tr.2 :: base.2
  let adjusted := applyAdjustments mf base.1 reasons1
  let final_score := clamp adjusted.1 1 10
  let reasons2 :=
    if final_score ≠ adjusted.1 then
      adjusted.2 ++ ["clamped from " ++ toString adjusted.1 ++ " to " ++ toString final_score]
    else adjusted.2
  let reasoning := joinSep " | " reasons2
  mkClassificationResult final_score tr.1 reasoning 1 .rule_based

/-! ## LLM-based classifier reply parsing
(src/backend/app/classifier/llm_based.py, `_parse_llm_response`) -/

/-- The value space of Python `json.loads`: JSON null, booleans, numbers
(integers and floats are distinct Python types), strings, arrays, objects. -/
inductive Json where
  | null
  | bool (b : Bool)
  | int (n : Int)
  | float (q : ℚ)
  | str (s : String)
  | arr (xs : List Json)
  | obj (fields : List (String × Json))

/-- Truncation toward zero (Python `int(float)`). -/
def ratTrunc (q : ℚ) : Int := if 0 ≤ q then Int.floor q else Int.ceil q

/-- Python `int(x)` on a JSON value; `none` models the raised
`TypeError`/`ValueError` (`int(None)`, `int([])`, `int("abc")`, …).
String parsing approximates Python (optional sign, decimal digits,
surrounding whitespace). -/
def pyInt : Json → Option Int
  | .int n => some n
  | .float q => some (ratTrunc q)
  | .bool b => some (if b then 1 else 0)
  | .str s => pyParseInt s
  | _ => none

/-- Python `float(x)` on a JSON value; `none` models the raised
`TypeError`/`ValueError`. -/
def pyFloat : Json → Option ℚ
  | .int n => some n
  | .float q => some q
  | .bool b => some (if b then 1 else 0)
  | .str s => readDecimal s
  | _ => none

/-- Python `str(x)` on a JSON value (total; container renderings are
approximate and never influence a theorem: any such string is not a valid
task-type value and trims to a non-empty reasoning). -/
def pyStr : Json → String
  | .str s => s
  | .null => "None"
  | .bool b => if b then "True" else "False"
  | .int n => toString n
  | .float q => toString q
  | .arr _ => "[..]"
  | .obj _ => "{..}"

/-- `_VALID_TASK_TYPES` — the `.value` strings of `TaskType`, in enum order. -/
def VALID_TASK_TYPES : List String :=
  ["simple_qa", "translation", "code", "analysis", "creative", "math",
   "reasoning", "general"]

/-- The dict assembled by `_parse_llm_response` on success. -/
structure LLMParsed where
  complexity_score : Int
  task_type : String
  reasoning : String
  confidence : ℚ
deriving DecidableEq

/-- How `_parse_llm_response` fails: `invalidJson` is the
`ValueError("LLM returned invalid JSON. Raw response: ...")` raised on
`json.JSONDecodeError` — the only error that carries the raw reply;
`typeError` is any exception escaping from `int(...)`, `float(...)` or
`data.get` on a non-dict, re-raised as-is by the bare `except`. -/
inductive LLMParseError where
  | invalidJson (raw : String)
  | typeError
deriving DecidableEq

/-- `data.get(key, default)` on the parsed object. -/
def jsonGet (fields : List (String × Json)) (key : String) (dflt : Json) : Json :=
  (alookup key fields).getD dflt

/-- `_parse_llm_response` after `json.loads`: the argument `parsed` is the
outcome of fence-stripping plus `json.loads` on the raw reply (`none` =
`json.JSONDecodeError`), `raw_text` the raw reply; mirrors the source's
validation order (score, task type, confidence, reasoning). -/
def parseLLMResponse (parsed : Option Json) (raw_text : String) :
    Except LLMParseError LLMParsed :=
  match parsed with
  | none => .error (.invalidJson raw_text)
  | some (.obj fields) =>
    match pyInt (jsonGet fields "complexity_score" (.int 5)) with
    | none => .error .typeError
    | some score0 =>
      let score := max 1 (min 10 score0)
      let raw_type := pyStrip (pyLower (pyStr (jsonGet fields "task_type" (.str "general"))))
      let task_type := if VALID_TASK_TYPES.contains raw_type then raw_type else "general"
      match pyFloat (jsonGet fields "confidence" (.float 0.8)) with
      | none => .error .typeError
      | some conf0 =>
        let confidence := round2 (max 0 (min 1 conf0))
        let reasoning0 := pyStr (jsonGet fields "reasoning" (.str "LLM classification"))
        let reasoning :=
          if pyStrip reasoning0 = "" then "LLM classification (no reasoning provided)"
          else reasoning0
        .ok { complexity_score := score, task_type := task_type
              reasoning := reasoning, confidence := confidence }
  | some _ => .error .typeError

/-! ## Concrete cache states used in the analysis -/

/-- A capacity-2 cache at capacity whose least-recently-used entry (key
`("a", rule_based)`, created at time 0) is expired at time 10 under TTL 6,
while the more recently used entry (key `("b", rule_based)`, created at
time 5) is not. -/
def staleHeadCache : ResponseCache Nat :=
  { max_size := 2, ttl := 6
    store := [(("a", .rule_based), { value := 0, created_at := 0 }),
              (("b", .rule_based), { value := 1, created_at := 5 })]
    hits := 0, misses := 0 }

/-- A capacity-1 cache at capacity holding the single key `("x", rule_based)`. -/
def fullOneCache : ResponseCache Nat :=
  { max_size := 1, ttl := 9
    store := [(("x", .rule_based), { value := 5, created_at := 0 })]
    hits := 0, misses := 0 }

/-! ## Lemmas about association lists and eviction -/

theorem alookup_eq_none_of_forall {α β : Type} [DecidableEq α] {k : α}
    {l : List (α × β)} (h : ∀ p ∈ l, p.1 ≠ k) : alookup k l = none := by
  induction l with
  | nil => rfl
  | cons p t ih =>
    obtain ⟨a, b⟩ := p
    have ha : a ≠ k := h (a, b) (List.mem_cons_self _ _)
    simp only [alookup, if_neg ha]
    exact ih (fun q hq => h q (List.mem_cons_of_mem _ hq))

theorem forall_ne_of_alookup_eq_none {α β : Type} [DecidableEq α] {k : α}
    {l : List (α × β)} (h : alookup k l = none) : ∀ p ∈ l, p.1 ≠ k := by
  induction l with
  | nil => intro p hp; simp at hp
  | cons p t ih =>
    obtain ⟨a, b⟩ := p
    by_cases hak : a = k
    · simp [alookup, hak] at h
    · simp only [alookup, if_neg hak] at h
      intro q hq
      rcases List.mem_cons.1 hq with hq | hq
      · subst hq; exact hak
      · exact ih h q hq

theorem alookup_append_self {α β : Type} [DecidableEq α] (k : α) (e : β)
    {l : List (α × β)} (h : alookup k l = none) :
    alookup k (l ++ [(k, e)]) = some e := by
  induction l with
  | nil => simp [alookup]
  | cons p t ih =>
    obtain ⟨a, b⟩ := p
    by_cases hak : a = k
    · simp [alookup, hak] at h
    · simp only [alookup, if_neg hak] at h ⊢
      exact ih h

theorem aerase_eq_of_none {α β : Type} [DecidableEq α] {k : α}
    {l : List (α × β)} (h : alookup k l = none) : aerase k l = l := by
  induction l with
  | nil => rfl
  | cons p t ih =>
    obtain ⟨a, b⟩ := p
    by_cases hak : a = k
    · simp [alookup, hak] at h
    · simp only [alookup, if_neg hak] at h
      simp only [aerase, if_neg hak]
      rw [ih h]

theorem length_aerase_of_some {α β : Type} [DecidableEq α] {k : α} {e : β}
    {l : List (α × β)} (h : alookup k l = some e) :
    (aerase k l).length + 1 = l.length := by
  induction l with
  | nil => simp [alookup] at h
  | cons p t ih =>
    obtain ⟨a, b⟩ := p
    by_cases hak : a = k
    · simp [aerase, hak]
    · simp only [alookup, if_neg hak] at h
      simp only [aerase, if_neg hak, List.length_cons]
      rw [← ih h]

theorem alookup_aerase_self {α β : Type} [DecidableEq α] {k : α}
    {l : List (α × β)} (h : (l.map Prod.fst).Nodup) :
    alookup k (aerase k l) = none := by
  induction l with
  | nil => rfl
  | cons p t ih =>
    obtain ⟨a, b⟩ := p
    simp only [List.map_cons, List.nodup_cons] at h
    by_cases hak : a = k
    · simp only [aerase, if_pos hak]
      refine alookup_eq_none_of_forall (fun q hq => ?_)
      intro hqk
      exact h.1 (hak ▸ hqk ▸ List.mem_map_of_mem Prod.fst hq)
    · simp only [aerase, if_neg hak, alookup, if_neg hak]
      exact ih h.2

theorem keys_aerase_subset {α β : Type} [DecidableEq α] (k : α)
    (l : List (α × β)) : ∀ p ∈ aerase k l, p ∈ l := by
  induction l with
  | nil => intro p hp; simp [aerase] at hp
  | cons q t ih =>
    obtain ⟨a, b⟩ := q
    by_cases hak : a = k
    · simp only [aerase, if_pos hak]
      intro p hp; exact List.mem_cons_of_mem _ hp
    · simp only [aerase, if_neg hak]
      intro p hp
      rcases List.mem_cons.1 hp with hp | hp
      · exact hp ▸ List.mem_cons_self _ _
      · exact List.mem_cons_of_mem _ (ih p hp)

theorem alookup_evictWhile_none {α β : Type} [DecidableEq α] {k : α}
    (m : Nat) {l : List (α × β)} (h : alookup k l = none) :
    alookup k (evictWhile m l) = none := by
  induction l with
  | nil => exact h
  | cons x xs ih =>
    have hx := forall_ne_of_alookup_eq_none h
    have hxs : alookup k xs = none :=
      alookup_eq_none_of_forall (fun p hp => hx p (List.mem_cons_of_mem _ hp))
    simp only [evictWhile]
    split
    · exact ih hxs
    · exact h

theorem evictWhile_length_le {α : Type} (m : Nat) (l : List α) (h : 1 ≤ m) :
    (evictWhile m l).length ≤ m - 1 := by
  induction l with
  | nil => simp only [evictWhile, List.length_nil]; omega
  | cons x xs ih =>
    simp only [evictWhile]
    split
    · exact ih
    · simp only [List.length_cons]; omega

theorem evictWhile_of_lt {α : Type} {m : Nat} {l : List α} (h : l.length < m) :
    evictWhile m l = l := by
  cases l with
  | nil => rfl
  | cons x xs =>
    simp only [List.length_cons] at h
    simp only [evictWhile, if_neg (by omega : ¬ xs.length + 1 ≥ m)]

theorem evictWhile_of_eq {α : Type} {m : Nat} {l : List α}
    (h : l.length = m) (h1 : 1 ≤ m) : evictWhile m l = l.tail := by
  cases l with
  | nil => simp at h; omega
  | cons x xs =>
    simp only [List.length_cons] at h
    simp only [evictWhile, if_pos (by omega : xs.length + 1 ≥ m), List.tail_cons]
    exact evictWhile_of_lt (by omega)

/-! ## Case analyses of the cache operations -/

theorem put_spec {V : Type} (c : ResponseCache V) (prompt : String)
    (mode : ClassifierMode) (v : V) (now : ℚ) :
    c.put prompt mode v now =
      { c with store :=
          (evictWhile c.max_size
            (if acontains (makeKey prompt mode) c.store then
              aerase (makeKey prompt mode) c.store
            else c.store)
          ++ [(makeKey prompt mode, { value := v, created_at := now })]) } := rfl

theorem get_spec {V : Type} (c : ResponseCache V) (prompt : String)
    (mode : ClassifierMode) (now : ℚ) :
    (alookup (makeKey prompt mode) c.store = none ∧
      c.get prompt mode now = (none, { c with misses := c.misses + 1 })) ∨
    (∃ e, alookup (makeKey prompt mode) c.store = some e ∧
      e.is_expired c.ttl now = true ∧
      c.get prompt mode now =
        (none, { c with store := aerase (makeKey prompt mode) c.store,
                        misses := c.misses + 1 })) ∨
    (∃ e, alookup (makeKey prompt mode) c.store = some e ∧
      e.is_expired c.ttl now = false ∧
      c.get prompt mode now =
        (some e.value, { c with store := moveToEnd (makeKey prompt mode) c.store,
                                hits := c.hits + 1 })) := by
  cases h : alookup (makeKey prompt mode) c.store with
  | none =>
    left
    exact ⟨rfl, by simp [ResponseCache.get, h]⟩
  | some e =>
    right
    cases hexp : e.is_expired c.ttl now with
    | true =>
      left
      exact ⟨e, rfl, hexp, by simp [ResponseCache.get, h, hexp]⟩
    | false =>
      right
      exact ⟨e, rfl, hexp, by simp [ResponseCache.get, h, hexp]⟩

theorem put_store_length {V : Type} (c : ResponseCache V) (prompt : String)
    (mode : ClassifierMode) (v : V) (now : ℚ) (h : 1 ≤ c.max_size) :
    (c.put prompt mode v now).store.length ≤ c.max_size := by
  rw [put_spec]
  simp only [List.length_append, List.length_singleton]
  have := evictWhile_length_le c.max_size
    (if acontains (makeKey prompt mode) c.store then
      aerase (makeKey prompt mode) c.store
    else c.store) h
  omega

theorem get_store_length {V : Type} (c : ResponseCache V) (prompt : String)
    (mode : ClassifierMode) (now : ℚ) :
    (c.get prompt mode now).2.store.length ≤ c.store.length := by
  rcases get_spec c prompt mode now with ⟨_, hg⟩ | ⟨e, he, _, hg⟩ | ⟨e, he, _, hg⟩
  · rw [hg]
  · rw [hg]
    have := length_aerase_of_some he
    simp only
    omega
  · rw [hg]
    simp only [moveToEnd, he, List.length_append, List.length_singleton]
    have := length_aerase_of_some he
    omega

theorem applyOp_max_size {V : Type} (c : ResponseCache V) (op : CacheOp V) :
    (applyOp c op).max_size = c.max_size := by
  cases op with
  | get prompt mode now =>
    rcases get_spec c prompt mode now with ⟨_, hg⟩ | ⟨e, _, _, hg⟩ | ⟨e, _, _, hg⟩ <;>
      simp [applyOp, hg]
  | put prompt mode v now => rw [applyOp, put_spec]
  | clear => rfl

theorem applyOp_store_length {V : Type} (c : ResponseCache V) (op : CacheOp V)
    (h1 : 1 ≤ c.max_size) (h0 : c.store.length ≤ c.max_size) :
    (applyOp c op).store.length ≤ c.max_size := by
  cases op with
  | get prompt mode now =>
    exact le_trans (get_store_length c prompt mode now) h0
  | put prompt mode v now => exact put_store_length c prompt mode v now h1
  | clear => simp [applyOp, ResponseCache.clear]

theorem applyOps_store_length {V : Type} (ops : List (CacheOp V)) :
    ∀ (c : ResponseCache V), 1 ≤ c.max_size → c.store.length ≤ c.max_size →
      (applyOps c ops).store.length ≤ c.max_size := by
  induction ops with
  | nil => intro c _ h0; exact h0
  | cons op rest ih =>
    intro c h1 h0
    have hmax := applyOp_max_size c op
    have := ih (applyOp c op) (hmax ▸ h1) (hmax ▸ applyOp_store_length c op h1 h0)
    simpa [applyOps, hmax] using this

/-! ## Claims about the cache -/

/-- C9: for every `ResponseCache` with a positive capacity, the number of
stored entries never exceeds the capacity after any sequence of `get`, `put`
and `clear` operations; moreover a single `put` restores the bound regardless
of the current size (it evicts while the store is at or above capacity before
inserting). -/
theorem claim_C9_capacity_bound :
    (∀ (V : Type) (c : ResponseCache V) (ops : List (CacheOp V)),
      1 ≤ c.max_size → c.store.length ≤ c.max_size →
      (applyOps c ops).store.length ≤ c.max_size) ∧
    (∀ (V : Type) (c : ResponseCache V) (prompt : String) (mode : ClassifierMode)
      (v : V) (now : ℚ),
      1 ≤ c.max_size → (c.put prompt mode v now).store.length ≤ c.max_size) := by
  constructor
  · intro V c ops h1 h0
    exact applyOps_store_length ops c h1 h0
  · intro V c prompt mode v now h1
    exact put_store_length c prompt mode v now h1

/-- Witness for C9: three puts of distinct keys into an empty capacity-2 cache
keep the size within 2, and a put into a cache already holding 3 entries with
capacity 1 brings the size back to 1. -/
theorem claim_C9_capacity_bound_witness :
    (applyOps (ResponseCache.mk0 Nat 2 100)
      [CacheOp.put "a" .rule_based 1 0, CacheOp.put "b" .rule_based 2 1,
       CacheOp.put "c" .rule_based 3 2]).store.length ≤ 2 ∧
    ((⟨1, 9, [(("x", .rule_based), ⟨5, 0⟩), (("y", .rule_based), ⟨6, 1⟩),
        (("z", .rule_based), ⟨7, 2⟩)], 0, 0⟩ : ResponseCache Nat).put
      "w" .rule_based 8 3).store.length ≤ 1 := by
  constructor
  · exact claim_C9_capacity_bound.1 Nat (ResponseCache.mk0 Nat 2 100) _
      (by decide) (by decide)
  · exact claim_C9_capacity_bound.2 Nat _ "w" .rule_based 8 3 (by decide)

/-- C10: `put` never changes the hit or miss counter, and every `get`
increments exactly one of the two counters by exactly 1, leaving the other
unchanged. -/
theorem claim_C10_counter_frame :
    (∀ (V : Type) (c : ResponseCache V) (prompt : String) (mode : ClassifierMode)
      (v : V) (now : ℚ),
      (c.put prompt mode v now).hits = c.hits ∧
      (c.put prompt mode v now).misses = c.misses) ∧
    (∀ (V : Type) (c : ResponseCache V) (prompt : String) (mode : ClassifierMode)
      (now : ℚ),
      ((c.get prompt mode now).2.hits = c.hits + 1 ∧
        (c.get prompt mode now).2.misses = c.misses) ∨
      ((c.get prompt mode now).2.hits = c.hits ∧
        (c.get prompt mode now).2.misses = c.misses + 1)) := by
  constructor
  · intro V c prompt mode v now
    rw [put_spec]
    exact ⟨rfl, rfl⟩
  · intro V c prompt mode now
    rcases get_spec c prompt mode now with ⟨_, hg⟩ | ⟨e, _, _, hg⟩ | ⟨e, _, _, hg⟩
    · right; rw [hg]; exact ⟨rfl, rfl⟩
    · right; rw [hg]; exact ⟨rfl, rfl⟩
    · left; rw [hg]; exact ⟨rfl, rfl⟩

/-- C2: whenever the entry stored under a key has age strictly greater than
the configured TTL, `get` on that key returns empty, increments the miss
counter, leaves the hit counter unchanged, deletes the entry (the key no
longer resolves), and the `stats()` size drops by one — an expired entry is
never returned as a hit. -/
theorem claim_C2_ttl_expiry (V : Type) (c : ResponseCache V) (prompt : String)
    (mode : ClassifierMode) (now : ℚ) (entry : CacheEntry V)
    (hnodup : (c.store.map Prod.fst).Nodup)
    (hfound : alookup (makeKey prompt mode) c.store = some entry)
    (hage : now - entry.created_at > c.ttl) :
    (c.get prompt mode now).1 = none ∧
    (c.get prompt mode now).2.misses = c.misses + 1 ∧
    (c.get prompt mode now).2.hits = c.hits ∧
    alookup (makeKey prompt mode) (c.get prompt mode now).2.store = none ∧
    ((c.get prompt mode now).2.stats).size + 1 = (c.stats).size := by
  have hexp : entry.is_expired c.ttl now = true := by
    simp only [CacheEntry.is_expired, decide_eq_true_eq]
    exact hage
  have hg : c.get prompt mode now =
      (none, { c with store := aerase (makeKey prompt mode) c.store,
                      misses := c.misses + 1 }) := by
    simp [ResponseCache.get, hfound, hexp]
  rw [hg]
  refine ⟨rfl, rfl, rfl, alookup_aerase_self hnodup, ?_⟩
  simp only [ResponseCache.stats]
  exact length_aerase_of_some hfound

/-- Witness for C2: one entry created at time 0, TTL 5, queried at time 6. -/
theorem claim_C2_ttl_expiry_witness :
    (((⟨100, 5, [(("a", .rule_based), ⟨7, 0⟩)], 0, 0⟩ : ResponseCache Nat).get
       "a" .rule_based 6).1 = none ∧
     ((⟨100, 5, [(("a", .rule_based), ⟨7, 0⟩)], 0, 0⟩ : ResponseCache Nat).get
       "a" .rule_based 6).2.misses = 0 + 1 ∧
     ((⟨100, 5, [(("a", .rule_based), ⟨7, 0⟩)], 0, 0⟩ : ResponseCache Nat).get
       "a" .rule_based 6).2.hits = 0 ∧
     alookup (makeKey "a" .rule_based)
       ((⟨100, 5, [(("a", .rule_based), ⟨7, 0⟩)], 0, 0⟩ : ResponseCache Nat).get
         "a" .rule_based 6).2.store = none ∧
     (((⟨100, 5, [(("a", .rule_based), ⟨7, 0⟩)], 0, 0⟩ : ResponseCache Nat).get
       "a" .rule_based 6).2.stats).size + 1 =
       ((⟨100, 5, [(("a", .rule_based), ⟨7, 0⟩)], 0, 0⟩ : ResponseCache Nat).stats).size) :=
  claim_C2_ttl_expiry Nat _ "a" .rule_based 6 ⟨7, 0⟩ (by decide) (by decide)
    (by norm_num)

/-- C8: on any cache whose stored keys are distinct and whose TTL is
positive, `put(text, strategy, v)` immediately followed by
`get(text, strategy)` returns exactly `v`, increments the hit counter by
exactly 1, and leaves the miss counter unchanged. -/
theorem claim_C8_put_get_roundtrip (V : Type) (c : ResponseCache V)
    (prompt : String) (mode : ClassifierMode) (v : V) (now : ℚ)
    (hnodup : (c.store.map Prod.fst).Nodup) (httl : 0 < c.ttl) :
    ((c.put prompt mode v now).get prompt mode now).1 = some v ∧
    ((c.put prompt mode v now).get prompt mode now).2.hits = c.hits + 1 ∧
    ((c.put prompt mode v now).get prompt mode now).2.misses = c.misses := by
  set k := makeKey prompt mode with hk
  have hs1 : alookup k (if acontains k c.store then aerase k c.store else c.store)
      = none := by
    by_cases hc : acontains k c.store
    · rw [if_pos hc]
      exact alookup_aerase_self hnodup
    · rw [if_neg hc]
      simp only [acontains, Option.isSome_iff_exists] at hc
      cases h : alookup k c.store with
      | none => rfl
      | some e => exact absurd ⟨e, h⟩ hc
  have hs2 : alookup k (evictWhile c.max_size
      (if acontains k c.store then aerase k c.store else c.store)) = none :=
    alookup_evictWhile_none c.max_size hs1
  have hfound : alookup k (c.put prompt mode v now).store =
      some { value := v, created_at := now } := by
    rw [put_spec]
    exact alookup_append_self k _ hs2
  have hexp : ({ value := v, created_at := now } : CacheEntry V).is_expired
      (c.put prompt mode v now).ttl now = false := by
    simp only [CacheEntry.is_expired, decide_eq_false_iff_not, not_lt]
    rw [put_spec]
    simp only [sub_self]
    exact le_of_lt httl
  have hg := get_spec (c.put prompt mode v now) prompt mode now
  rcases hg with ⟨hnone, _⟩ | ⟨e, he, hex, _⟩ | ⟨e, he, hex, hget⟩
  · rw [← hk, hfound] at hnone
    exact absurd hnone (by simp)
  · rw [← hk, hfound] at he
    obtain rfl : e = { value := v, created_at := now } := by
      injection he.symm
    rw [hexp] at hex
    exact absurd hex (by simp)
  · rw [← hk, hfound] at he
    obtain rfl : e = { value := v, created_at := now } := by
      injection he.symm
    rw [hget]
    refine ⟨rfl, ?_, ?_⟩
    · rw [put_spec]
    · rw [put_spec]

/-- C1, counterexample to the claim as stated: eviction at `put` pops the
head of the ordered store unconditionally, without consulting expiry.  In
`staleHeadCache` (capacity 2, at capacity) the head entry A is expired at
time 10 while entry B is not, so the least-recently-used among non-expired
entries is B; yet `put` of the fresh key C evicts A and keeps B.  The claim
says the evicted entry is "exactly the least-recently-used among non-expired
entries", i.e. B — refuted, since B is still present and the evicted A is not
a non-expired entry at all. -/
theorem claim_C1_counterexample :
    CacheEntry.is_expired ({ value := 0, created_at := 0 } : CacheEntry Nat) 6 10
      = true ∧
    CacheEntry.is_expired ({ value := 1, created_at := 5 } : CacheEntry Nat) 6 10
      = false ∧
    alookup ("a", ClassifierMode.rule_based)
      ((staleHeadCache.put "c" .rule_based 2 10).store) = none ∧
    (alookup ("b", ClassifierMode.rule_based)
      ((staleHeadCache.put "c" .rule_based 2 10).store)).isSome = true := by
  refine ⟨?_, ?_, ?_, ?_⟩
  · simp only [CacheEntry.is_expired, decide_eq_true_eq]
    norm_num
  · simp only [CacheEntry.is_expired, decide_eq_false_iff_not, not_lt]
    norm_num
  · decide
  · decide

/-- C1 (amended): when `put` inserts a new key into a cache at capacity, the
entry evicted is exactly the least-recently-used among **all** stored entries
— the head of the recency order, where recency is set by the last successful
`get` or `put` on the key — irrespective of expiry (expiry is consulted only
by `get`).  When no stored entry is expired this coincides with the
least-recently-used non-expired entry; in particular the capacity-2 scenario
put(A), put(B), get(A), put(C) with nothing expired returns A on the get and
leaves A and C present and B absent. -/
theorem claim_C1_lru_eviction :
    (∀ (V : Type) (c : ResponseCache V) (prompt : String) (mode : ClassifierMode)
      (v : V) (now : ℚ),
      c.store.length = c.max_size → 1 ≤ c.max_size →
      alookup (makeKey prompt mode) c.store = none →
      (c.put prompt mode v now).store =
        c.store.tail ++ [(makeKey prompt mode, { value := v, created_at := now })]) ∧
    ((((ResponseCache.mk0 Nat 2 100).put "a" .rule_based 1 0).put "b" .rule_based 2 1).get
        "a" .rule_based 2).1 = some 1 ∧
    (alookup (makeKey "a" .rule_based)
      (((((ResponseCache.mk0 Nat 2 100).put "a" .rule_based 1 0).put "b" .rule_based 2 1).get
        "a" .rule_based 2).2.put "c" .rule_based 3 3).store).isSome = true ∧
    (alookup (makeKey "c" .rule_based)
      (((((ResponseCache.mk0 Nat 2 100).put "a" .rule_based 1 0).put "b" .rule_based 2 1).get
        "a" .rule_based 2).2.put "c" .rule_based 3 3).store).isSome = true ∧
    alookup (makeKey "b" .rule_based)
      (((((ResponseCache.mk0 Nat 2 100).put "a" .rule_based 1 0).put "b" .rule_based 2 1).get
        "a" .rule_based 2).2.put "c" .rule_based 3 3).store = none := by
  have hscen : ((((ResponseCache.mk0 Nat 2 100).put "a" .rule_based 1 0).put
      "b" .rule_based 2 1).get "a" .rule_based 2) =
      (some 1,
        { max_size := 2, ttl := 100
          store := [(makeKey "b" .rule_based, { value := 2, created_at := 1 }),
                    (makeKey "a" .rule_based, { value := 1, created_at := 0 })]
          hits := 1, misses := 0 }) := by
    have hexp : ({ value := 1, created_at := 0 } : CacheEntry Nat).is_expired 100 2
        = false := by
      simp only [CacheEntry.is_expired, decide_eq_false_iff_not, not_lt]
      norm_num
    simp only [ResponseCache.mk0, ResponseCache.put, ResponseCache.get]
    simp [hexp, makeKey, pyStrip, pyLower, acontains, alookup, aerase, evictWhile,
      moveToEnd]
  refine ⟨?_, ?_⟩
  · intro V c prompt mode v now hlen hcap hnew
    rw [put_spec]
    have hcont : acontains (makeKey prompt mode) c.store = false := by
      simp [acontains, hnew]
    rw [hcont]
    simp only [Bool.false_eq_true, if_false]
    rw [evictWhile_of_eq hlen hcap]
  · rw [hscen]
    refine ⟨rfl, ?_, ?_, ?_⟩ <;> decide

/-- Witness for the universally quantified part of C1 (amended): a put of the
fresh key `("y", rule_based)` into `fullOneCache` (capacity 1, at capacity)
evicts exactly the head entry. -/
theorem claim_C1_lru_eviction_witness :
    (fullOneCache.put "y" .rule_based 7 4).store =
      fullOneCache.store.tail ++
        [(makeKey "y" .rule_based, { value := 7, created_at := 4 })] :=
  claim_C1_lru_eviction.1 Nat fullOneCache "y" .rule_based 7 4
    (by decide) (by decide) (by decide)

/-- Witness for C8: empty capacity-2 cache with TTL 100; put then get the
same prompt at time 0. -/
theorem claim_C8_put_get_roundtrip_witness :
    (((ResponseCache.mk0 Nat 2 100).put "a" .rule_based 1 0).get
      "a" .rule_based 0).1 = some 1 ∧
    (((ResponseCache.mk0 Nat 2 100).put "a" .rule_based 1 0).get
      "a" .rule_based 0).2.hits = (ResponseCache.mk0 Nat 2 100).hits + 1 ∧
    (((ResponseCache.mk0 Nat 2 100).put "a" .rule_based 1 0).get
      "a" .rule_based 0).2.misses = (ResponseCache.mk0 Nat 2 100).misses :=
  claim_C8_put_get_roundtrip Nat (ResponseCache.mk0 Nat 2 100) "a" .rule_based 1 0
    (by decide) (by norm_num [ResponseCache.mk0])

/-! ## Claims about the router -/

/-- C3: for every integer score `s` with `1 ≤ s ≤ 10`, the tier function maps
`s` to exactly one of low, medium, high via the inclusive ranges
low = [1,3], medium = [4,6], high = [7,10], and the tier is monotonic
non-decreasing in `s` under the order low < medium < high. -/
theorem claim_C3_tier_ranges :
    (∀ s : Int, 1 ≤ s → s ≤ 10 →
      ((getTier s = "low" ↔ 1 ≤ s ∧ s ≤ 3) ∧
       (getTier s = "medium" ↔ 4 ≤ s ∧ s ≤ 6) ∧
       (getTier s = "high" ↔ 7 ≤ s ∧ s ≤ 10))) ∧
    (∀ s t : Int, 1 ≤ s → s ≤ t → t ≤ 10 →
      tierOrd (getTier s) ≤ tierOrd (getTier t)) := by
  constructor
  · intro s h1 h10
    unfold getTier
    split_ifs with h3 h6
    · exact ⟨⟨fun _ => ⟨h1, h3⟩, fun _ => rfl⟩,
        ⟨fun h => absurd h (by decide), fun h => by exfalso; omega⟩,
        ⟨fun h => absurd h (by decide), fun h => by exfalso; omega⟩⟩
    · exact ⟨⟨fun h => absurd h (by decide), fun h => by exfalso; omega⟩,
        ⟨fun _ => ⟨by omega, h6⟩, fun _ => rfl⟩,
        ⟨fun h => absurd h (by decide), fun h => by exfalso; omega⟩⟩
    · exact ⟨⟨fun h => absurd h (by decide), fun h => by exfalso; omega⟩,
        ⟨fun h => absurd h (by decide), fun h => by exfalso; omega⟩,
        ⟨fun _ => ⟨by omega, h10⟩, fun _ => rfl⟩⟩
  · intro s t h1 hst h10
    by_cases hs3 : s ≤ 3 <;> by_cases hs6 : s ≤ 6 <;>
      by_cases ht3 : t ≤ 3 <;> by_cases ht6 : t ≤ 6 <;>
        simp [getTier, tierOrd, hs3, hs6, ht3, ht6] <;> omega

theorem getTier_cases (s : Int) :
    getTier s = "low" ∨ getTier s = "medium" ∨ getTier s = "high" := by
  unfold getTier
  split_ifs <;> simp

theorem mkRoutingDecision_route_form (m : ModelName) (chain : List Nat) :
    mkRoutingDecision m (MODEL_REGISTRY m).provider chain
      (round6 (((MODEL_REGISTRY m).cost_per_1k_input_tokens
        + (MODEL_REGISTRY m).cost_per_1k_output_tokens) / 2))
      (MODEL_REGISTRY m).avg_latency_ms
    = some
      { model := m, provider := (MODEL_REGISTRY m).provider
        reasoning_chain := chain
        estimated_cost_per_1k_tokens :=
          ((MODEL_REGISTRY m).cost_per_1k_input_tokens
            + (MODEL_REGISTRY m).cost_per_1k_output_tokens) / 2
        estimated_latency_ms := (MODEL_REGISTRY m).avg_latency_ms } := by
  cases m <;> norm_num [mkRoutingDecision, MODEL_REGISTRY, round6]

theorem route_reduce (c : ClassificationResult) (tier : String) (d0 : ModelName)
    (ht : getTier c.complexity_score = tier)
    (hd : alookup tier TIER_DEFAULTS = some d0)
    (hb : buildReasoningChain tier = some [1, 2, 3, 4, 5]) :
    route c = some
      { model := (alookup (tier, c.task_type) ROUTING_TABLE).getD d0
        provider :=
          (MODEL_REGISTRY ((alookup (tier, c.task_type) ROUTING_TABLE).getD d0)).provider
        reasoning_chain := [1, 2, 3, 4, 5]
        estimated_cost_per_1k_tokens :=
          ((MODEL_REGISTRY ((alookup (tier, c.task_type) ROUTING_TABLE).getD d0)).cost_per_1k_input_tokens
            + (MODEL_REGISTRY ((alookup (tier, c.task_type) ROUTING_TABLE).getD d0)).cost_per_1k_output_tokens) / 2
        estimated_latency_ms :=
          (MODEL_REGISTRY ((alookup (tier, c.task_type) ROUTING_TABLE).getD d0)).avg_latency_ms } := by
  simp only [route, ht, hd, hb]
  exact mkRoutingDecision_route_form _ _

/-- C4: for every valid `ClassificationResult` (complexity score in `[1,10]`,
task type in the closed enumeration), `route` returns exactly one
`RoutingDecision` without raising, whose estimated cost per 1000 tokens is
the arithmetic mean of the chosen target's input and output per-1k rates and
whose estimated latency is the chosen target's average latency from the
registry. -/
theorem claim_C4_route_total_cost_latency (c : ClassificationResult)
    (h1 : 1 ≤ c.complexity_score) (h10 : c.complexity_score ≤ 10) :
    ∃ d, route c = some d ∧
      d.estimated_cost_per_1k_tokens =
        ((MODEL_REGISTRY d.model).cost_per_1k_input_tokens
          + (MODEL_REGISTRY d.model).cost_per_1k_output_tokens) / 2 ∧
      d.estimated_latency_ms = (MODEL_REGISTRY d.model).avg_latency_ms := by
  rcases getTier_cases c.complexity_score with ht | ht | ht
  · exact ⟨_, route_reduce c "low" .gpt_4o_mini ht (by decide) (by decide), rfl, rfl⟩
  · exact ⟨_, route_reduce c "medium" .gpt_4o_mini ht (by decide) (by decide), rfl, rfl⟩
  · exact ⟨_, route_reduce c "high" .gpt_4o ht (by decide) (by decide), rfl, rfl⟩

/-- Witness for C4: a score-5 code classification routes to some decision
whose cost is the blended mean and whose latency is the registry latency. -/
theorem claim_C4_route_total_cost_latency_witness :
    ∃ d, route { complexity_score := 5, task_type := .code, reasoning := "x"
                 confidence := 1, classifier_mode := .rule_based } = some d ∧
      d.estimated_cost_per_1k_tokens =
        ((MODEL_REGISTRY d.model).cost_per_1k_input_tokens
          + (MODEL_REGISTRY d.model).cost_per_1k_output_tokens) / 2 ∧
      d.estimated_latency_ms = (MODEL_REGISTRY d.model).avg_latency_ms :=
  claim_C4_route_total_cost_latency _ (by decide) (by decide)

/-- Witness for C3: score 2 is low, scores 5 and 8 are medium and high, and
monotonicity holds for the pair (2, 8). -/
theorem claim_C3_tier_ranges_witness :
    (getTier 2 = "low" ↔ 1 ≤ (2 : Int) ∧ (2 : Int) ≤ 3) ∧
    tierOrd (getTier 2) ≤ tierOrd (getTier 8) :=
  ⟨(claim_C3_tier_ranges.1 2 (by decide) (by decide)).1,
   claim_C3_tier_ranges.2 2 8 (by decide) (by decide) (by decide)⟩

/-! ## Claims about the heuristic classifier -/

theorem maxHits_cons (mf : Regex → Bool) (e : List Regex × TaskType × String)
    (l : List (List Regex × TaskType × String)) :
    maxHits mf (e :: l) = max (bankHits mf e) (maxHits mf l) := rfl

theorem find_bankHits_isSome (mf : Regex → Bool)
    (l : List (List Regex × TaskType × String)) (h : 0 < maxHits mf l) :
    (l.find? (fun e => bankHits mf e = maxHits mf l)).isSome := by
  induction l with
  | nil => simp [maxHits] at h
  | cons e rest ih =>
    by_cases he : bankHits mf e = maxHits mf (e :: rest)
    · rw [List.find?_cons_of_pos _ (by simp [he])]
      rfl
    · have hM : maxHits mf (e :: rest) = maxHits mf rest := by
        rcases max_choice (bankHits mf e) (maxHits mf rest) with h1 | h1
        · exact absurd ((maxHits_cons mf e rest).trans h1).symm he
        · exact (maxHits_cons mf e rest).trans h1
      rw [List.find?_cons_of_neg _ (by simp [he]), hM]
      exact ih (hM ▸ h)

theorem detectLoop_eq (mf : Regex → Bool)
    (l : List (List Regex × TaskType × String)) :
    ∀ (best : TaskType × String) (bh : Nat),
    detectLoop mf l best bh =
      if bh < maxHits mf l then
        ((l.find? (fun e => bankHits mf e = maxHits mf l)).map
          (fun e => (e.2.1, e.2.2))).getD best
      else best := by
  induction l with
  | nil =>
    intro best bh
    simp [detectLoop, maxHits]
  | cons e rest ih =>
    intro best bh
    obtain ⟨ps, t, r⟩ := e
    have hbank : bankHits mf (ps, t, r) = countMatches mf ps := rfl
    by_cases hgt : countMatches mf ps > bh
    · rw [show detectLoop mf ((ps, t, r) :: rest) best bh
          = detectLoop mf rest (t, r) (countMatches mf ps) by
        simp [detectLoop, hgt]]
      rw [ih]
      by_cases hr : countMatches mf ps < maxHits mf rest
      · have hM : maxHits mf ((ps, t, r) :: rest) = maxHits mf rest := by
          rw [maxHits_cons, hbank]
          omega
      -- the head does not attain the max, so the search continues in the tail
        have hne : ¬ (bankHits mf (ps, t, r)
            = maxHits mf ((ps, t, r) :: rest)) := by
          rw [hM, hbank]
          omega
        rw [if_pos hr, if_pos (by rw [hM]; omega),
          List.find?_cons_of_neg _ (by simp [hne]), hM]
        obtain ⟨x, hx⟩ := Option.isSome_iff_exists.1
          (find_bankHits_isSome mf rest (by omega))
        rw [hx]
        rfl
      · have hM : maxHits mf ((ps, t, r) :: rest) = countMatches mf ps := by
          rw [maxHits_cons, hbank]
          omega
        have hattain : bankHits mf (ps, t, r)
            = maxHits mf ((ps, t, r) :: rest) := by
          rw [hM, hbank]
        rw [if_neg hr, if_pos (by rw [hM]; omega),
          List.find?_cons_of_pos _ (by simp [hattain])]
        rfl
    · rw [show detectLoop mf ((ps, t, r) :: rest) best bh
          = detectLoop mf rest best bh by
        simp [detectLoop, hgt]]
      rw [ih]
      by_cases hm : bh < maxHits mf rest
      · have hM : maxHits mf ((ps, t, r) :: rest) = maxHits mf rest := by
          rw [maxHits_cons, hbank]
          omega
        have hne : ¬ (bankHits mf (ps, t, r)
            = maxHits mf ((ps, t, r) :: rest)) := by
          rw [hM, hbank]
          omega
        rw [if_pos hm, if_pos (by rw [hM]; omega),
          List.find?_cons_of_neg _ (by simp [hne]), hM]
      · have hM : ¬ bh < maxHits mf ((ps, t, r) :: rest) := by
          rw [maxHits_cons, hbank]
          omega
        rw [if_neg hm, if_neg hM]

theorem detectLoop_snd_mem (mf : Regex → Bool)
    (l : List (List Regex × TaskType × String)) :
    ∀ (best : TaskType × String) (bh : Nat),
      (detectLoop mf l best bh).2 = best.2 ∨
      (detectLoop mf l best bh).2 ∈ l.map (fun e => e.2.2) := by
  induction l with
  | nil => intro best bh; left; rfl
  | cons e rest ih =>
    intro best bh
    obtain ⟨ps, t, r⟩ := e
    by_cases hgt : countMatches mf ps > bh
    · rw [show detectLoop mf ((ps, t, r) :: rest) best bh
          = detectLoop mf rest (t, r) (countMatches mf ps) by
        simp [detectLoop, hgt]]
      rcases ih (t, r) (countMatches mf ps) with h | h
      · right; rw [h]; simp
      · right; simp only [List.map_cons, List.mem_cons]; right; exact h
    · rw [show detectLoop mf ((ps, t, r) :: rest) best bh
          = detectLoop mf rest best bh by
        simp [detectLoop, hgt]]
      rcases ih best bh with h | h
      · left; exact h
      · right; simp only [List.map_cons, List.mem_cons]; right; exact h

theorem detect_reason_len (mf : Regex → Bool) :
    1 ≤ ((detectTaskType mf).2).length := by
  have hmap : checks.map (fun e => e.2.2) =
      ["code-related keywords detected", "math/calculation keywords detected",
       "translation request detected", "creative writing keywords detected",
       "complex reasoning keywords detected", "analytical keywords detected",
       "simple question pattern detected"] := rfl
  unfold detectTaskType
  rcases detectLoop_snd_mem mf checks
      (.general, "no strong keyword signals; classified as general") 0 with h | h
  · rw [h]; decide
  · rw [hmap] at h
    simp only [List.mem_cons, List.not_mem_nil, or_false] at h
    rcases h with h | h | h | h | h | h | h <;> rw [h] <;> decide

theorem foldl_snd_extends {α : Type} (step : Int × List String → α → Int × List String)
    (hstep : ∀ acc x, ∃ t, (step acc x).2 = acc.2 ++ t) :
    ∀ (L : List α) (p : Int × List String), ∃ t, (L.foldl step p).2 = p.2 ++ t := by
  intro L
  induction L with
  | nil => exact fun p => ⟨[], by simp⟩
  | cons x xs ih =>
    intro p
    obtain ⟨t1, ht1⟩ := hstep p x
    obtain ⟨t2, ht2⟩ := ih (step p x)
    exact ⟨t1 ++ t2, by rw [List.foldl_cons, ht2, ht1, List.append_assoc]⟩

theorem applyAdjustments_snd (mf : Regex → Bool) (score : Int)
    (reasons : List String) :
    ∃ t, (applyAdjustments mf score reasons).2 = reasons ++ t := by
  have hB : ∀ acc x, ∃ t, (boosterStep mf acc x).2 = acc.2 ++ t := by
    intro acc x
    by_cases hx : mf x.1
    · exact ⟨["+" ++ toString x.2.1 ++ ": " ++ x.2.2], by simp [boosterStep, hx]⟩
    · exact ⟨[], by simp [boosterStep, hx]⟩
  have hR : ∀ acc x, ∃ t, (reducerStep mf acc x).2 = acc.2 ++ t := by
    intro acc x
    by_cases hx : mf x.1
    · exact ⟨["-" ++ toString x.2.1 ++ ": " ++ x.2.2], by simp [reducerStep, hx]⟩
    · exact ⟨[], by simp [reducerStep, hx]⟩
  obtain ⟨t1, ht1⟩ := foldl_snd_extends (boosterStep mf) hB COMPLEXITY_BOOSTERS
    (score, reasons)
  obtain ⟨t2, ht2⟩ := foldl_snd_extends (reducerStep mf) hR COMPLEXITY_REDUCERS
    (COMPLEXITY_BOOSTERS.foldl (boosterStep mf) (score, reasons))
  exact ⟨t1 ++ t2, by
    rw [applyAdjustments, ht2, ht1, List.append_assoc]⟩

theorem foldl_join_length (sep : String) (L : List String) :
    ∀ a : String, a.length ≤ (L.foldl (fun acc x => acc ++ sep ++ x) a).length := by
  induction L with
  | nil => intro a; exact le_refl _
  | cons x xs ih =>
    intro a
    refine le_trans ?_ (ih (a ++ sep ++ x))
    simp only [String.length_append]
    omega

theorem joinSep_length_head (sep a : String) (rest : List String) :
    a.length ≤ (joinSep sep (a :: rest)).length :=
  foldl_join_length sep rest a

theorem clamp_bounds (v lo hi : Int) (h : lo ≤ hi) :
    lo ≤ clamp v lo hi ∧ clamp v lo hi ≤ hi :=
  ⟨le_max_left _ _, max_le h (min_le_left _ _)⟩

theorem mkClassificationResult_some (score : Int) (t : TaskType) (reasoning : String)
    (mode : ClassifierMode) (h1 : 1 ≤ score) (h2 : score ≤ 10)
    (h3 : 1 ≤ reasoning.length) :
    mkClassificationResult score t reasoning 1 mode =
      some { complexity_score := score, task_type := t, reasoning := reasoning
             confidence := 1, classifier_mode := mode } := by
  unfold mkClassificationResult
  rw [if_pos ⟨h1, h2, h3, by norm_num, le_refl 1⟩]

theorem classify_eq_mk (mf : Regex → Bool) (prompt : String) :
    ∃ reasoning : String, 1 ≤ reasoning.length ∧
      classify mf prompt = mkClassificationResult
        (clamp (applyAdjustments mf
          (computeBaseComplexity (detectTaskType mf).1 (estimateTokenCount prompt)).1
          ((detectTaskType mf).2 ::
            (computeBaseComplexity (detectTaskType mf).1 (estimateTokenCount prompt)).2)).1
          1 10)
        (detectTaskType mf).1 reasoning 1 .rule_based := by
  refine ⟨_, ?_, rfl⟩
  obtain ⟨t0, ht0⟩ := applyAdjustments_snd mf
    (computeBaseComplexity (detectTaskType mf).1 (estimateTokenCount prompt)).1
    ((detectTaskType mf).2 ::
      (computeBaseComplexity (detectTaskType mf).1 (estimateTokenCount prompt)).2)
  rw [ht0]
  simp only [List.cons_append]
  split
  · exact le_trans (detect_reason_len mf) (joinSep_length_head _ _ _)
  · exact le_trans (detect_reason_len mf) (joinSep_length_head _ _ _)

/-- C5: for every prompt (represented by the set `mf` of source patterns that
match it), the task detection of the heuristic classifier selects the
category with the strictly highest pattern-match count; on ties the first
category in the evaluation order code, math, translation, creative,
reasoning, analysis, simple-qa wins; and when no pattern of any category
matches, the result is `general` — i.e. the loop of `_detect_task_type`
refines `detectTaskTypeSpec`, the selection rule as the spec words it. -/
theorem claim_C5_task_detection (mf : Regex → Bool) :
    (detectTaskType mf).1 = detectTaskTypeSpec mf := by
  unfold detectTaskType detectTaskTypeSpec
  rw [detectLoop_eq]
  by_cases h : 0 < maxHits mf checks
  · rw [if_pos h, if_neg (by omega)]
    obtain ⟨x, hx⟩ := Option.isSome_iff_exists.1 (find_bankHits_isSome mf checks h)
    rw [hx]
    rfl
  · rw [if_neg (by omega), if_pos (by omega)]

/-- C6: for every input (every prompt string and every set `mf` of source
patterns matching it), the heuristic `classify` returns a
`ClassificationResult` without error, its complexity score lies in `[1,10]`
and its confidence is exactly 1.0; and on the empty string — whose matching
pattern set is computed exactly by `searchEmptyInput` — the detected task
type is `general`. -/
theorem claim_C6_classifier_invariants :
    (∀ (mf : Regex → Bool) (prompt : String),
      ∃ r, classify mf prompt = some r ∧
        1 ≤ r.complexity_score ∧ r.complexity_score ≤ 10 ∧ r.confidence = 1) ∧
    (∃ r, classify (fun p => searchEmptyInput p) "" = some r ∧
      r.task_type = .general) := by
  constructor
  · intro mf prompt
    obtain ⟨reasoning, hlen, heq⟩ := classify_eq_mk mf prompt
    rw [heq, mkClassificationResult_some _ _ _ _
      (clamp_bounds _ 1 10 (by norm_num)).1
      (clamp_bounds _ 1 10 (by norm_num)).2 hlen]
    exact ⟨_, rfl, (clamp_bounds _ 1 10 (by norm_num)).1,
      (clamp_bounds _ 1 10 (by norm_num)).2, rfl⟩
  · have htok : estimateTokenCount "" = 1 := by
      norm_num [estimateTokenCount, pyWords, pyWordsAux]
    simp only [classify, htok]
    exact ⟨_, rfl, rfl⟩

/-! ## Claims about the delegated-classifier reply parsing -/

theorem round2_bounds (q : ℚ) (h0 : 0 ≤ q) (h1 : q ≤ 1) :
    0 ≤ round2 q ∧ round2 q ≤ 1 := by
  unfold round2
  have hf0 : (0 : Int) ≤ Int.floor (q * 100 + 1 / 2) :=
    Int.floor_nonneg.2 (by linarith)
  have hf1 : Int.floor (q * 100 + 1 / 2) ≤ 100 := by
    have hle : Int.floor (q * 100 + 1 / 2) ≤ Int.floor ((201 : ℚ) / 2) :=
      Int.floor_le_floor (by linarith)
    have h2 : Int.floor ((201 : ℚ) / 2) = 100 := by norm_num
    omega
  constructor
  · apply div_nonneg _ (by norm_num)
    exact_mod_cast hf0
  · rw [div_le_one (by norm_num)]
    exact_mod_cast hf1

/-- C7, counterexample to the claim as stated: the reply
`{"complexity_score": null}` parses successfully as JSON, yet its malformed
numeric field is not replaced by a default or clamped — `int(None)` raises,
and the resulting error is the bare `TypeError`, which does not carry the raw
reply text (only the invalid-JSON `ValueError` does). -/
theorem claim_C7_counterexample :
    parseLLMResponse (some (Json.obj [("complexity_score", Json.null)]))
      "reply with null score" = .error .typeError := by rfl

/-- C7 (amended): a structurally unparsable reply fails with the error
carrying the raw reply text; a reply parsed as an object whose
`complexity_score` coerces under Python `int` (in particular when the field
is missing, a number, or out of range — not when it is null or non-numeric)
and whose `confidence` coerces under Python `float` is parsed without error,
with the score clamped into `[1,10]` and the confidence clamped into
`[0,1]`. -/
theorem claim_C7_parse_validation (raw : String) (fields : List (String × Json))
    (hscore : (pyInt (jsonGet fields "complexity_score" (.int 5))).isSome)
    (hconf : (pyFloat (jsonGet fields "confidence" (.float 0.8))).isSome) :
    parseLLMResponse none raw = .error (.invalidJson raw) ∧
    ∃ r, parseLLMResponse (some (.obj fields)) raw = .ok r ∧
      1 ≤ r.complexity_score ∧ r.complexity_score ≤ 10 ∧
      0 ≤ r.confidence ∧ r.confidence ≤ 1 := by
  refine ⟨rfl, ?_⟩
  obtain ⟨s0, hs0⟩ := Option.isSome_iff_exists.1 hscore
  obtain ⟨c0, hc0⟩ := Option.isSome_iff_exists.1 hconf
  simp only [parseLLMResponse, hs0, hc0]
  have hconf0 : (0 : ℚ) ≤ max 0 (min 1 c0) := le_max_left _ _
  have hconf1 : max 0 (min 1 c0) ≤ 1 := max_le zero_le_one (min_le_left _ _)
  exact ⟨_, rfl, le_max_left _ _, max_le (by norm_num) (min_le_left _ _),
    (round2_bounds _ hconf0 hconf1).1, (round2_bounds _ hconf0 hconf1).2⟩

/-- Witness for C7 (amended): an out-of-range score 42 is clamped (not an
error) and the missing confidence field takes its default. -/
theorem claim_C7_parse_validation_witness :
    parseLLMResponse none "x" = .error (.invalidJson "x") ∧
    ∃ r, parseLLMResponse (some (.obj [("complexity_score", Json.int 42)])) "x"
        = .ok r ∧
      1 ≤ r.complexity_score ∧ r.complexity_score ≤ 10 ∧
      0 ≤ r.confidence ∧ r.confidence ≤ 1 :=
  claim_C7_parse_validation "x" [("complexity_score", Json.int 42)]
    (by rfl) (by rfl)
